import Mathlib

/-!
Verification of the spatial density estimation engine
(`src/featureEngineering/density.py`) against its specification.

The Python module is shallowly embedded below.  Conventions of the embedding:

* A pandas `DataFrame` row is a `Row` holding the two numeric coordinates the
  engine reads (the `x_col` / `y_col` columns); other columns are metadata the
  engine never touches, so they are omitted.  A `DataFrame` is a `List Row`
  (pandas rows are ordered).
* Python floats are represented by `ℚ`.  Products such as `int(n * 0.8)` are
  modelled as exact rational arithmetic followed by `Nat` floor division; the
  float literals 0.8, 0.1, … are read as the decimal fractions they denote.
* A raised Python exception is an `Except.error`; code that can raise returns
  `Except`.  The `try/except` of `model` is the visible `match` converting any
  `Except.error` of the body into the no-result outcome `none`.
* The ambient global pseudo-random state of numpy/pandas is threaded as an
  explicit `rng : ℕ` parameter.  A seeded draw `df.sample(n, random_state=42)`
  ignores the ambient state and uses only the fixed seed (see `drawSeeded`);
  an unseeded draw would consume `rng` (see `pandasSampleAmbient`, which the
  source never calls).
-/

/-- One row of the input DataFrame: the two coordinate columns read by the
engine (`x_col`, `y_col`). -/
structure Row where
  x : ℚ
  y : ℚ
deriving DecidableEq, Repr, Inhabited

/-- Embeds `_calculate_dynamic_resolution(data_size, base_resolution)`
(density.py lines 5-24).  `int(b * 1.5)`, `int(b * 0.8)`, `int(b * 0.6)`,
`int(b * 0.4)` are modelled as exact floor divisions. -/
def _calculate_dynamic_resolution (data_size : ℕ) (base_resolution : ℕ) : ℕ :=
  if data_size < 100 then min 100 (base_resolution * 2)
  else if data_size < 500 then min 80 (base_resolution * 3 / 2)
  else if data_size < 2000 then base_resolution
  else if data_size < 10000 then max 30 (base_resolution * 4 / 5)
  else if data_size < 50000 then max 25 (base_resolution * 3 / 5)
  else max 20 (base_resolution * 2 / 5)

/-- Models `pandas.cut(series, bins=k, labels=False)`: `k` equal-width
right-closed intervals over the range of the series, the lowest edge extended
so the minimum is included; each value is mapped to its 0-based interval
index.  When the series is constant pandas widens the degenerate range
symmetrically, putting every value in the middle interval. -/
def pd_cut (xs : List ℚ) (k : ℕ) : List ℕ :=
  match xs with
  | [] => []
  | a :: t =>
    let mn := t.foldl min a
    let mx := t.foldl max a
    (a :: t).map (fun v =>
      if mx = mn then (k + 1) / 2 - 1
      else Int.toNat (max 0 (⌈(v - mn) * (k : ℚ) / (mx - mn)⌉ - 1)))

/-- `(series.filter (= b)).length`: the multiplicity used by
`value_counts`. -/
def countOf (bs : List ℕ) (b : ℕ) : ℕ := (bs.filter (fun v => v = b)).length

/-- The distinct values of a list in order of first appearance. -/
def firstSeen : List ℕ → List ℕ
  | [] => []
  | b :: t => b :: (firstSeen t).filter (fun v => v ≠ b)

/-- Stable insertion (descending by `cnt`) used to model the ordering of
`Series.value_counts()`. -/
def insertByCount (cnt : ℕ → ℕ) (b : ℕ) : List ℕ → List ℕ
  | [] => [b]
  | c :: t => if cnt c ≤ cnt b then b :: c :: t else c :: insertByCount cnt b t

/-- Stable sort, descending by `cnt`. -/
def sortByCountDesc (cnt : ℕ → ℕ) : List ℕ → List ℕ
  | [] => []
  | b :: t => insertByCount cnt b (sortByCountDesc cnt t)

/-- Models the key order of `df_temp['spatial_bin'].value_counts()`: the
distinct bin ids, most frequent first (ties by first appearance). -/
def value_counts_keys (bs : List ℕ) : List ℕ :=
  sortByCountDesc (countOf bs) (firstSeen bs)

/-- Models `df.sample(n=n, random_state=seed)`: a deterministic selection of
`n` rows without replacement, fully determined by the fixed seed and the
input.  The concrete Mersenne-Twister permutation is abstracted as taking the
first `n` rows; every theorem below relies only on determinism, on the size
of the selection, and on its rows coming from the input. -/
def drawSeeded (seed : ℕ) (xs : List Row) (n : ℕ) : List Row :=
  xs.take n

/-- Models what an *unseeded* `df.sample(n)` would return: a draw consuming
the ambient global random state `rng`.  The source never performs an unseeded
draw; this definition exists to make the `rng` parameter threaded through the
engine meaningful. -/
def pandasSampleAmbient (rng : ℕ) (xs : List Row) (n : ℕ) : List Row :=
  (xs.drop (rng % (xs.length + 1)) ++ xs.take (rng % (xs.length + 1))).take n

/-- Embeds `_stratified_spatial_sample(df, n_sample, x_col, y_col)`
(density.py lines 26-71).  `int(np.sqrt(n_sample / 10))` equals
`Nat.sqrt (n_sample / 10)`; `int((count / len(df)) * n_sample)` is modelled
as exact floor division.  Both `.sample` calls pass `random_state=42`, so the
ambient state `rng` is never consumed.  The `try/except` fallback to plain
random sampling is unreachable in the embedding because every step is total. -/
def _stratified_spatial_sample (rng : ℕ) (df : List Row) (n_sample : ℕ) : List Row :=
  let n_bins := max 10 (min 50 (Nat.sqrt (n_sample / 10)))
  let x_bins := pd_cut (df.map (fun r => r.x)) n_bins
  let y_bins := pd_cut (df.map (fun r => r.y)) n_bins
  let bins := List.zipWith (fun a b => a * n_bins + b) x_bins y_bins
  let rows := List.zip df bins
  let sampled_dfs := (value_counts_keys bins).map (fun b =>
    let bin_data := (rows.filter (fun rb => rb.2 = b)).map (fun rb => rb.1)
    let bin_sample_size := max 1 (bin_data.length * n_sample / df.length)
    if bin_data.length ≤ bin_sample_size then bin_data
    else drawSeeded 42 bin_data bin_sample_size)
  let sampled_df := sampled_dfs.flatten
  if n_sample < sampled_df.length then drawSeeded 42 sampled_df n_sample
  else sampled_df

/-- The `sample_pct` tier of `model` (density.py lines 108-125). -/
def samplingTier (n : ℕ) : ℚ :=
  if n < 1000 then 1
  else if n < 5000 then 4/5
  else if n < 20000 then 1/2
  else if n < 50000 then 3/10
  else if n < 100000 then 1/5
  else 1/10

/-- The `max_sample` value of `model` (density.py lines 108-125);
`int(data_size * pct)` modelled as exact floor division. -/
def maxSampleOf (n : ℕ) : ℕ :=
  if n < 1000 then n
  else if n < 5000 then n * 4 / 5
  else if n < 20000 then n / 2
  else if n < 50000 then n * 3 / 10
  else if n < 100000 then n / 5
  else n / 10

/-- The point set actually histogrammed by `model` (density.py lines
130-134): the stratified sample when `sample_pct < 1.0`, otherwise the full
input. -/
def sampledSet (rng : ℕ) (df : List Row) : List Row :=
  if samplingTier df.length < 1 then _stratified_spatial_sample rng df (maxSampleOf df.length)
  else df

/-- `ndarray.min()` of a nonempty series (call sites guarantee
nonemptiness). -/
def npMin (xs : List ℚ) : ℚ :=
  match xs with
  | [] => 0
  | a :: t => t.foldl min a

/-- `ndarray.max()` of a nonempty series. -/
def npMax (xs : List ℚ) : ℚ :=
  match xs with
  | [] => 0
  | a :: t => t.foldl max a

/-- Embeds the bounds step of `model` (density.py lines 139-149): only
`x_min is None` is tested; in that case all four bounds are recomputed from
the data with a 10% padding per axis, otherwise the caller values (including
any `None`s) are passed through. -/
def computeBounds (x_min x_max y_min y_max : Option ℚ) (xs ys : List ℚ) :
    Option ℚ × Option ℚ × Option ℚ × Option ℚ :=
  match x_min with
  | none =>
    let x1 := npMin xs
    let x2 := npMax xs
    let y1 := npMin ys
    let y2 := npMax ys
    let x_padding := (x2 - x1) * (1/10)
    let y_padding := (y2 - y1) * (1/10)
    (some (x1 - x_padding), some (x2 + x_padding),
     some (y1 - y_padding), some (y2 + y_padding))
  | some _ => (x_min, x_max, y_min, y_max)

/-- `(List.range R).map` grid builder: an `R × C` matrix as a list of rows. -/
def mkGrid {α : Type} (R C : ℕ) (f : ℕ → ℕ → α) : List (List α) :=
  (List.range R).map (fun i => (List.range C).map (f i))

/-- Entry `i j` of a rational matrix (0 outside). -/
def entry (M : List (List ℚ)) (i j : ℕ) : ℚ := (M.getD i []).getD j 0

/-- Sum of all cells of a natural-number matrix. -/
def gridSumN (M : List (List ℕ)) : ℕ := (M.map List.sum).sum

/-- The bin index a value falls into for `numpy.histogram` semantics over
`[a, b]` with `R` equal-width bins: `none` outside `[a, b]`; all bins are
right-open except the last, which includes `b`. -/
def binIdx (a b : ℚ) (R : ℕ) (v : ℚ) : Option ℕ :=
  if v < a ∨ b < v then none
  else if b ≤ v then some (R - 1)
  else some (min (R - 1) (Int.toNat ⌊(v - a) * (R : ℚ) / (b - a)⌋))

/-- The `R+1` equally spaced bin edges over `[a, b]`. -/
def edgesOf (a b : ℚ) (R : ℕ) : List ℚ :=
  (List.range (R + 1)).map (fun (i : ℕ) => a + (i : ℚ) * (b - a) / (R : ℚ))

/-- Embeds `np.histogram2d(x, y, bins=R, range=[[x1,x2],[y1,y2]])` (density.py
lines 152-156).  numpy raises when a range entry is missing (`None` reaches a
float comparison), when `R = 0`, or when a maximum is below its minimum; a
degenerate equal-bound axis is widened by 0.5 on each side.  `hist[i][j]`
counts the points in x-bin `i` and y-bin `j`; points outside the box fall in
no bin.  Returns the histogram and the two edge vectors. -/
def histogram2d (pts : List Row) (R : ℕ) (ox1 ox2 oy1 oy2 : Option ℚ) :
    Except String (List (List ℕ) × List ℚ × List ℚ) :=
  match ox1, ox2, oy1, oy2 with
  | some x1, some x2, some y1, some y2 =>
    if R = 0 then Except.error "bins must be a positive integer"
    else if x2 < x1 then Except.error "max must be larger than min in range parameter"
    else if y2 < y1 then Except.error "max must be larger than min in range parameter"
    else
      let px := if x1 = x2 then (x1 - 1/2, x2 + 1/2) else (x1, x2)
      let py := if y1 = y2 then (y1 - 1/2, y2 + 1/2) else (y1, y2)
      Except.ok
        (mkGrid R R (fun i j => pts.countP (fun r =>
          decide (binIdx px.1 px.2 R r.x = some i) &&
          decide (binIdx py.1 py.2 R r.y = some j))),
         edgesOf px.1 px.2 R, edgesOf py.1 py.2 R)
  | _, _, _, _ => Except.error "range parameter must be finite"

/-- Number of columns of a rectangular matrix. -/
def ncols (M : List (List ℚ)) : ℕ := (M.headD []).length

/-- `ndarray.T` for a rectangular matrix. -/
def npTranspose (M : List (List ℚ)) : List (List ℚ) :=
  mkGrid (ncols M) M.length (fun i j => (M.getD j []).getD i 0)

/-- Cast a count matrix to rationals. -/
def natGrid (M : List (List ℕ)) : List (List ℚ) :=
  M.map (fun row => row.map (fun (n : ℕ) => (n : ℚ)))

/-- Zero-padded integer-indexed access (`mode='constant'`, `cval=0`). -/
def entryZ (M : List (List ℚ)) (i j : ℤ) : ℚ :=
  if 0 ≤ i ∧ 0 ≤ j then (M.getD i.toNat []).getD j.toNat 0 else 0

/-- Unnormalized surrogate Gaussian weight at offset `d`.  The transcendental
weights `exp(-d²/(2σ²))` of scipy cannot be represented exactly in `ℚ`; the
surrogate `2^(-d²)` is an exact rational Gaussian-shaped kernel (positive,
symmetric, decreasing in `|d|`).  No theorem in this file depends on the
weight values, only on the convolution structure around them. -/
def gw (d : ℤ) : ℚ := 1 / 2 ^ (d.natAbs * d.natAbs)

/-- scipy's kernel truncation radius `int(truncate * sigma + 0.5)` with the
default `truncate = 4.0`. -/
def gaussRadius (sigma : ℚ) : ℕ := (⌊4 * sigma + 1/2⌋).toNat

/-- Normalizing constant of the surrogate kernel of radius `t`. -/
def gwSum (t : ℕ) : ℚ :=
  ((List.range (2 * t + 1)).map (fun (k : ℕ) => gw ((k : ℤ) - (t : ℤ)))).sum

/-- Normalized surrogate kernel weight. -/
def gweight (t : ℕ) (d : ℤ) : ℚ := gw d / gwSum t

/-- Models `scipy.ndimage.gaussian_filter(M, sigma, mode='constant')`:
convolution with the normalized truncated kernel, zero padding outside the
array.  scipy applies two separable 1-D passes; in exact arithmetic that
equals this single pass with the product kernel. -/
def gaussian_filter (sigma : ℚ) (M : List (List ℚ)) : List (List ℚ) :=
  let t := gaussRadius sigma
  mkGrid M.length (ncols M) (fun i j =>
    ((List.range (2 * t + 1)).map (fun (a : ℕ) =>
      ((List.range (2 * t + 1)).map (fun (b : ℕ) =>
        gweight t ((a : ℤ) - (t : ℤ)) * gweight t ((b : ℤ) - (t : ℤ)) *
        entryZ M ((i : ℤ) + ((a : ℤ) - (t : ℤ))) ((j : ℤ) + ((b : ℤ) - (t : ℤ))))).sum)).sum)

/-- Pointwise map over a matrix (`ndarray / scalar` is `gridMapQ (· / c)`). -/
def gridMapQ (f : ℚ → ℚ) (M : List (List ℚ)) : List (List ℚ) :=
  M.map (List.map f)

/-- `(edges[:-1] + edges[1:]) / 2`: the cell-center coordinates. -/
def centers (e : List ℚ) : List ℚ :=
  List.zipWith (fun a b => (a + b) / 2) e e.tail

/-- `np.meshgrid(xc, yc)`: the pair `(xi, yi)` with `xi[i][j] = xc[j]` and
`yi[i][j] = yc[i]`; both have `len yc` rows of `len xc` entries. -/
def meshgrid (xc yc : List ℚ) : List (List ℚ) × List (List ℚ) :=
  (yc.map (fun _ => xc), yc.map (fun v => xc.map (fun _ => v)))

/-- The dictionary returned by a successful `model` call (density.py lines
173-180): exactly the six keys of the source. -/
structure DensityResult where
  x : List (List ℚ)
  y : List (List ℚ)
  density : List (List ℚ)
  x_flat : List ℚ
  y_flat : List ℚ
  density_flat : List ℚ
deriving DecidableEq, Repr, Inhabited

/-- The sampling, bounds and histogram steps of `model` (density.py lines
103-156), named so that the later smoothing steps can match on the one
fallible stage.  The histogram is built over the sampled set with the dynamic
resolution and the bounds of `computeBounds`. -/
def modelHistogram (rng : ℕ) (df : List Row) (base_resolution : ℕ)
    (x_min x_max y_min y_max : Option ℚ) :
    Except String (List (List ℕ) × List ℚ × List ℚ) :=
  let sampled_df := sampledSet rng df
  let xs := sampled_df.map (fun r => r.x)
  let ys := sampled_df.map (fun r => r.y)
  let b := computeBounds x_min x_max y_min y_max xs ys
  histogram2d sampled_df (_calculate_dynamic_resolution df.length base_resolution)
    b.1 b.2.1 b.2.2.1 b.2.2.2

/-- The body of the `try:` block of `model` (density.py lines 101-180).  An
`Except.error` is an exception raised inside the block. -/
def modelBody (rng : ℕ) (df : List Row) (base_resolution : ℕ) (sigma : ℚ)
    (x_min x_max y_min y_max : Option ℚ) : Except String DensityResult :=
  match modelHistogram rng df base_resolution x_min x_max y_min y_max with
  | Except.error e => Except.error e
  | Except.ok (hist, x_edges, y_edges) =>
    let sample_pct := samplingTier df.length
    let density0 := gaussian_filter sigma (npTranspose (natGrid hist))
    let density := if sample_pct < 1 then gridMapQ (fun q => q / sample_pct) density0
                   else density0
    let x_centers := centers x_edges
    let y_centers := centers y_edges
    let mesh := meshgrid x_centers y_centers
    Except.ok
      { x := mesh.1, y := mesh.2, density := density,
        x_flat := mesh.1.flatten, y_flat := mesh.2.flatten, density_flat := density.flatten }

/-- Embeds `model` (density.py lines 73-184).  The result type
`Except String (Option DensityResult)` separates an uncaught exception
propagating to the caller (`Except.error`) from the two outcomes the function
actually produces: `ok (some r)` (the result dictionary) and `ok none`
(Python `None`).  The guard `len(df) < 10` sits outside the `try:`; the
`match` on `modelBody` is the `except Exception` handler converting any
raised error into `None`. -/
def model (rng : ℕ) (df : List Row) (base_resolution : ℕ) (sigma : ℚ)
    (x_min x_max y_min y_max : Option ℚ) : Except String (Option DensityResult) :=
  if df.length < 10 then Except.ok none
  else
    match modelBody rng df base_resolution sigma x_min x_max y_min y_max with
    | Except.ok r => Except.ok (some r)
    | Except.error _ => Except.ok none

/-- The smoothed density *before* the sampling-bias correction of density.py
lines 161-163: the same pipeline with the `density / sample_pct` step
removed (junk `[]` when the histogram step raises). -/
def uncorrectedSmoothed (rng : ℕ) (df : List Row) (base_resolution : ℕ) (sigma : ℚ)
    (x_min x_max y_min y_max : Option ℚ) : List (List ℚ) :=
  match modelHistogram rng df base_resolution x_min x_max y_min y_max with
  | Except.error _ => []
  | Except.ok (hist, _, _) => gaussian_filter sigma (npTranspose (natGrid hist))

instance instDecEqExcept {ε α : Type} [DecidableEq ε] [DecidableEq α] :
    DecidableEq (Except ε α) := fun x y =>
  match x, y with
  | Except.ok a, Except.ok b =>
    if h : a = b then isTrue (by rw [h])
    else isFalse (by intro hh; injection hh; contradiction)
  | Except.error a, Except.error b =>
    if h : a = b then isTrue (by rw [h])
    else isFalse (by intro hh; injection hh; contradiction)
  | Except.ok _, Except.error _ => isFalse (by intro hh; injection hh)
  | Except.error _, Except.ok _ => isFalse (by intro hh; injection hh)

/-- `true` iff a `model` outcome is a success carrying a result. -/
def succeeded (o : Except String (Option DensityResult)) : Bool :=
  match o with
  | Except.ok (some _) => true
  | _ => false

/-- Extracts the result of a successful `model` outcome (junk otherwise). -/
def resultOf (o : Except String (Option DensityResult)) : DensityResult :=
  match o with
  | Except.ok (some r) => r
  | _ => default

/-- Extracts the triple of a successful `histogram2d` call (junk otherwise). -/
def histOf (o : Except String (List (List ℕ) × List ℚ × List ℚ)) :
    List (List ℕ) × List ℚ × List ℚ :=
  match o with
  | Except.ok t => t
  | Except.error _ => ([], [], [])

/-- Proof helper: the tier index of a point count. -/
def tierOf (n : ℕ) : ℕ :=
  if n < 100 then 0 else if n < 500 then 1 else if n < 2000 then 2
  else if n < 10000 then 3 else if n < 50000 then 4 else 5

/-- Proof helper: the resolution used on each tier. -/
def tierValue (b k : ℕ) : ℕ :=
  match k with
  | 0 => min 100 (b * 2)
  | 1 => min 80 (b * 3 / 2)
  | 2 => b
  | 3 => max 30 (b * 4 / 5)
  | 4 => max 25 (b * 3 / 5)
  | _ => max 20 (b * 2 / 5)

/-- Concrete 10-point input of the C3 counterexample and witness: nine
points at (1/2, 1/2) and one exactly at the corner (1, 1) of the box
`[0,1]²`. -/
def dfCorner : List Row :=
  [⟨1/2,1/2⟩, ⟨1/2,1/2⟩, ⟨1/2,1/2⟩, ⟨1/2,1/2⟩, ⟨1/2,1/2⟩,
   ⟨1/2,1/2⟩, ⟨1/2,1/2⟩, ⟨1/2,1/2⟩, ⟨1/2,1/2⟩, ⟨1,1⟩]

/-! ### Claim C2: the resolution selector -/

theorem resolution_eq_tierValue (n b : ℕ) :
    _calculate_dynamic_resolution n b = tierValue b (tierOf n) := by
  unfold _calculate_dynamic_resolution tierOf
  split_ifs <;> rfl

theorem tierValue_step (b : ℕ) (hb1 : 30 ≤ b) (hb2 : b ≤ 80) (k : ℕ) :
    tierValue b (k + 1) ≤ tierValue b k := by
  match k with
  | 0 => simp only [tierValue, Nat.min_def, Nat.max_def]; split_ifs <;> omega
  | 1 => simp only [tierValue, Nat.min_def, Nat.max_def]; split_ifs <;> omega
  | 2 => simp only [tierValue, Nat.min_def, Nat.max_def]; split_ifs <;> omega
  | 3 => simp only [tierValue, Nat.min_def, Nat.max_def]; split_ifs <;> omega
  | 4 => simp only [tierValue, Nat.min_def, Nat.max_def]; split_ifs <;> omega
  | n + 5 => exact le_refl _

theorem tierValue_anti (b : ℕ) (hb1 : 30 ≤ b) (hb2 : b ≤ 80) (j k : ℕ) (h : j ≤ k) :
    tierValue b k ≤ tierValue b j := by
  have step : ∀ d i, tierValue b (i + d) ≤ tierValue b i := by
    intro d
    induction d with
    | zero => intro i; exact le_refl _
    | succ m ih =>
      intro i
      calc tierValue b (i + (m + 1)) = tierValue b ((i + m) + 1) := by ring_nf
        _ ≤ tierValue b (i + m) := tierValue_step b hb1 hb2 (i + m)
        _ ≤ tierValue b i := ih i
  have hk : k = j + (k - j) := by omega
  rw [hk]
  exact step (k - j) j

theorem tierOf_mono (n₁ n₂ : ℕ) (h : n₁ ≤ n₂) : tierOf n₁ ≤ tierOf n₂ := by
  unfold tierOf
  split_ifs <;> omega

theorem tierValue_bounds (b : ℕ) (hb1 : 30 ≤ b) (hb2 : b ≤ 80) (k : ℕ) :
    20 ≤ tierValue b k ∧ tierValue b k ≤ 2 * b := by
  match k with
  | 0 => simp only [tierValue, Nat.min_def, Nat.max_def]; split_ifs <;> omega
  | 1 => simp only [tierValue, Nat.min_def, Nat.max_def]; split_ifs <;> omega
  | 2 => simp only [tierValue]; omega
  | 3 => simp only [tierValue, Nat.min_def, Nat.max_def]; split_ifs <;> omega
  | 4 => simp only [tierValue, Nat.min_def, Nat.max_def]; split_ifs <;> omega
  | n + 5 => simp only [tierValue, Nat.min_def, Nat.max_def]; split_ifs <;> omega

/-- C2 (amended): for every base resolution `b` with `30 ≤ b ≤ 80`,
`_calculate_dynamic_resolution` is monotonically non-increasing in the point
count and always returns an integer in `[20, 2b]`.  (As stated over all `b`
the claim is false: see the counterexample, which exhibits a monotonicity
violation at the default `b = 100`, violations fixing the bounds 30 and 80,
and a return value below 20 at `b = 10`.) -/
theorem c2_resolution_tiers (b n₁ n₂ : ℕ) (hb1 : 30 ≤ b) (hb2 : b ≤ 80) (hn : n₁ ≤ n₂) :
    _calculate_dynamic_resolution n₂ b ≤ _calculate_dynamic_resolution n₁ b ∧
    20 ≤ _calculate_dynamic_resolution n₁ b ∧
    _calculate_dynamic_resolution n₁ b ≤ 2 * b := by
  rw [resolution_eq_tierValue, resolution_eq_tierValue]
  exact ⟨tierValue_anti b hb1 hb2 _ _ (tierOf_mono n₁ n₂ hn),
    (tierValue_bounds b hb1 hb2 _).1, (tierValue_bounds b hb1 hb2 _).2⟩

/-- C2 counterexample: the claim as stated fails.  Crossing the tier boundary
at `n = 500` strictly increases the resolution for the default base
resolution 100 (80 to 100) and for `b = 81`; crossing `n = 2000` increases it
for `b = 29`; and at `b = 10`, `n = 100` the returned value 15 lies below the
claimed lower bound 20. -/
theorem c2_resolution_tiers_counterexample :
    _calculate_dynamic_resolution 499 100 = 80 ∧
    _calculate_dynamic_resolution 500 100 = 100 ∧
    _calculate_dynamic_resolution 499 81 = 80 ∧
    _calculate_dynamic_resolution 500 81 = 81 ∧
    _calculate_dynamic_resolution 1999 29 = 29 ∧
    _calculate_dynamic_resolution 2000 29 = 30 ∧
    _calculate_dynamic_resolution 100 10 = 15 ∧ ¬ 20 ≤ 15 := by
  decide

/-- C2 witness: the amended theorem applied at `b = 50`, `n₁ = 400`,
`n₂ = 600`. -/
theorem c2_resolution_tiers_witness :
    _calculate_dynamic_resolution 600 50 ≤ _calculate_dynamic_resolution 400 50 ∧
    20 ≤ _calculate_dynamic_resolution 400 50 ∧
    _calculate_dynamic_resolution 400 50 ≤ 2 * 50 :=
  c2_resolution_tiers 50 400 600 (by decide) (by decide) (by decide)

/-! ### Bounds and error propagation: claims C7, C10, C6 -/

theorem foldl_min_le_init (l : List ℚ) (a : ℚ) : l.foldl min a ≤ a := by
  induction l generalizing a with
  | nil => exact le_refl a
  | cons b t ih => exact le_trans (ih (min a b)) (min_le_left a b)

theorem init_le_foldl_max (l : List ℚ) (a : ℚ) : a ≤ l.foldl max a := by
  induction l generalizing a with
  | nil => exact le_refl a
  | cons b t ih => exact le_trans (le_max_left a b) (ih (max a b))

theorem npMin_le_npMax (xs : List ℚ) : npMin xs ≤ npMax xs := by
  match xs with
  | [] => exact le_refl 0
  | a :: t => exact le_trans (foldl_min_le_init t a) (init_le_foldl_max t a)

theorem modelHistogram_auto_ok (rng : ℕ) (df : List Row) (b : ℕ)
    (hR : _calculate_dynamic_resolution df.length b ≠ 0) :
    ∃ t, modelHistogram rng df b none none none none = Except.ok t := by
  unfold modelHistogram computeBounds
  set pts := sampledSet rng df with hpts
  set xs := pts.map (fun r => r.x) with hxs
  set ys := pts.map (fun r => r.y) with hys
  have hx : npMin xs - (npMax xs - npMin xs) * (1/10) ≤
      npMax xs + (npMax xs - npMin xs) * (1/10) := by
    have := npMin_le_npMax xs
    nlinarith
  have hy : npMin ys - (npMax ys - npMin ys) * (1/10) ≤
      npMax ys + (npMax ys - npMin ys) * (1/10) := by
    have := npMin_le_npMax ys
    nlinarith
  unfold histogram2d
  simp only [if_neg hR, if_neg (not_lt.mpr hx), if_neg (not_lt.mpr hy)]
  exact ⟨_, rfl⟩

theorem model_auto_succeeds (rng : ℕ) (df : List Row) (b : ℕ) (s : ℚ)
    (hlen : ¬ df.length < 10) (hR : _calculate_dynamic_resolution df.length b ≠ 0) :
    succeeded (model rng df b s none none none none) = true := by
  obtain ⟨⟨hist, xe, ye⟩, ht⟩ := modelHistogram_auto_ok rng df b hR
  simp [model, hlen, modelBody, ht, succeeded]

theorem modelHistogram_partial_error (rng : ℕ) (df : List Row) (b : ℕ) (x1 : ℚ)
    (o2 o3 o4 : Option ℚ) (h : o2 = none ∨ o3 = none ∨ o4 = none) :
    ∃ e, modelHistogram rng df b (some x1) o2 o3 o4 = Except.error e := by
  unfold modelHistogram computeBounds
  rcases h with h | h | h <;> subst h
  · cases o3 <;> cases o4 <;> exact ⟨_, rfl⟩
  · cases o2 <;> cases o4 <;> exact ⟨_, rfl⟩
  · cases o2 <;> cases o3 <;> exact ⟨_, rfl⟩

/-- C7: `model` never raises an uncaught exception to its caller: for every
input its outcome is `Except.ok` — either a result or the no-result outcome
`none`.  In the embedding `Except.error` is exactly an exception escaping
`model`; the insufficient-data guard returns `None` before the `try:` block,
and every failure inside the body is caught by the `except` handler and
converted to `None`. -/
theorem c7_never_raises (rng : ℕ) (df : List Row) (b : ℕ) (s : ℚ)
    (o1 o2 o3 o4 : Option ℚ) :
    ∃ o, model rng df b s o1 o2 o3 o4 = Except.ok o := by
  by_cases hlen : df.length < 10
  · exact ⟨none, by simp [model, hlen]⟩
  · match h : modelBody rng df b s o1 o2 o3 o4 with
    | Except.ok r => exact ⟨some r, by simp [model, hlen, h]⟩
    | Except.error e => exact ⟨none, by simp [model, hlen, h]⟩

/-- C10: bounds selection is keyed solely on `x_min`.  (a) When `x_min` is
`None` the box is recomputed from the data: any caller-supplied `x_max`,
`y_min`, `y_max` are ignored — the call behaves exactly as if all four were
`None`.  (b) When `x_min` is supplied but any of the other three is `None`,
the call does not use a partial box: it ends in the no-result outcome
(`Except.ok none`), because the partial bounds reach the histogram stage and
raise there. -/
theorem c10_partial_bounds :
    (∀ (o2 o3 o4 : Option ℚ) (xs ys : List ℚ),
      computeBounds none o2 o3 o4 xs ys = computeBounds none none none none xs ys) ∧
    (∀ (rng : ℕ) (df : List Row) (b : ℕ) (s : ℚ) (x1 : ℚ) (o2 o3 o4 : Option ℚ),
      o2 = none ∨ o3 = none ∨ o4 = none →
      model rng df b s (some x1) o2 o3 o4 = Except.ok none) := by
  constructor
  · intro o2 o3 o4 xs ys
    rfl
  · intro rng df b s x1 o2 o3 o4 h
    by_cases hlen : df.length < 10
    · simp [model, hlen]
    · obtain ⟨e, he⟩ := modelHistogram_partial_error rng df b x1 o2 o3 o4 h
      simp [model, hlen, modelBody, he]

/-- C10 witness: part (a) applied with a partial caller box `(None, 5, 7,
None)`, part (b) applied to a 10-point set with `x_min` supplied and `x_max`
missing. -/
theorem c10_partial_bounds_witness :
    computeBounds none (some 5) (some 7) none [1, 2] [3, 4] =
      computeBounds none none none none [1, 2] [3, 4] ∧
    model 0 [⟨0,0⟩,⟨1,0⟩,⟨0,1⟩,⟨1,1⟩,⟨2,1⟩,⟨0,2⟩,⟨1,2⟩,⟨2,2⟩,⟨3,1⟩,⟨3,3⟩] 100 (3/2)
      (some 0) none (some 0) (some 1) = Except.ok none :=
  ⟨c10_partial_bounds.1 (some 5) (some 7) none [1, 2] [3, 4],
   c10_partial_bounds.2 0 _ 100 (3/2) 0 none (some 0) (some 1) (Or.inl rfl)⟩

/-- C6: the insufficient-data boundary of `model` with the default arguments
(`base_resolution = 100`, `sigma = 1.5`, no caller bounds): any input of
exactly 9 points yields the no-result outcome `None`, and any input of
exactly 10 points yields a valid density result.  Coordinates are rationals,
hence finite, matching the claim's finiteness proviso. -/
theorem c6_insufficient_data_boundary (rng : ℕ) (df : List Row) :
    (df.length = 9 → model rng df 100 (3/2) none none none none = Except.ok none) ∧
    (df.length = 10 → succeeded (model rng df 100 (3/2) none none none none) = true) := by
  constructor
  · intro h
    simp [model, h]
  · intro h
    apply model_auto_succeeds
    · omega
    · rw [h]
      decide

/-- C6 witness: the theorem applied to a concrete 9-point input and a
concrete 10-point input. -/
theorem c6_insufficient_data_boundary_witness :
    model 0 [⟨0,0⟩,⟨1,0⟩,⟨0,1⟩,⟨1,1⟩,⟨2,1⟩,⟨0,2⟩,⟨1,2⟩,⟨2,2⟩,⟨3,1⟩] 100 (3/2)
      none none none none = Except.ok none ∧
    succeeded (model 0 [⟨0,0⟩,⟨1,0⟩,⟨0,1⟩,⟨1,1⟩,⟨2,1⟩,⟨0,2⟩,⟨1,2⟩,⟨2,2⟩,⟨3,1⟩,⟨3,3⟩]
      100 (3/2) none none none none) = true :=
  ⟨(c6_insufficient_data_boundary 0 _).1 rfl, (c6_insufficient_data_boundary 0 _).2 rfl⟩

/-! ### Claim C1: contents of the result dictionary -/

theorem mkGrid_length {α : Type} (R C : ℕ) (f : ℕ → ℕ → α) : (mkGrid R C f).length = R := by
  simp [mkGrid]

theorem mkGrid_row_length {α : Type} {R C : ℕ} {f : ℕ → ℕ → α} {row : List α}
    (h : row ∈ mkGrid R C f) : row.length = C := by
  simp only [mkGrid, List.mem_map, List.mem_range] at h
  obtain ⟨i, _, rfl⟩ := h
  simp

theorem mkGrid_getD {α : Type} (R C : ℕ) (f : ℕ → ℕ → α) (i : ℕ) (hi : i < R) :
    (mkGrid R C f).getD i [] = (List.range C).map (f i) := by
  rw [mkGrid, List.getD_eq_getElem?_getD, List.getElem?_map, List.getElem?_range hi]
  rfl

theorem entry_mkGrid (R C : ℕ) (f : ℕ → ℕ → ℚ) (i j : ℕ) (hi : i < R) (hj : j < C) :
    entry (mkGrid R C f) i j = f i j := by
  rw [entry, mkGrid_getD R C f i hi, List.getD_eq_getElem?_getD, List.getElem?_map,
    List.getElem?_range hj]
  rfl

theorem natGrid_mkGrid (R C : ℕ) (f : ℕ → ℕ → ℕ) :
    natGrid (mkGrid R C f) = mkGrid R C (fun i j => ((f i j : ℕ) : ℚ)) := by
  simp only [natGrid, mkGrid, List.map_map, Function.comp_def]

theorem gridMapQ_mkGrid (g : ℚ → ℚ) (R C : ℕ) (f : ℕ → ℕ → ℚ) :
    gridMapQ g (mkGrid R C f) = mkGrid R C (fun i j => g (f i j)) := by
  simp only [gridMapQ, mkGrid, List.map_map, Function.comp_def]

theorem ncols_mkGrid (R C : ℕ) (f : ℕ → ℕ → ℚ) (hR : R ≠ 0) :
    ncols (mkGrid R C f) = C := by
  obtain ⟨m, rfl⟩ := Nat.exists_eq_succ_of_ne_zero hR
  simp [ncols, mkGrid, List.range_succ_eq_map]

theorem npTranspose_mkGrid (R C : ℕ) (f : ℕ → ℕ → ℚ) (hR : R ≠ 0) :
    npTranspose (mkGrid R C f) =
      mkGrid C R (fun i j => ((mkGrid R C f).getD j []).getD i 0) := by
  rw [npTranspose, ncols_mkGrid R C f hR, mkGrid_length]

theorem gaussian_filter_shape (s : ℚ) (R C : ℕ) (f : ℕ → ℕ → ℚ) (hR : R ≠ 0) :
    ∃ g, gaussian_filter s (mkGrid R C f) = mkGrid R C g := by
  simp only [gaussian_filter]
  rw [ncols_mkGrid R C f hR, mkGrid_length]
  exact ⟨_, rfl⟩

theorem length_edgesOf (a b : ℚ) (R : ℕ) : (edgesOf a b R).length = R + 1 := by
  simp [edgesOf]

theorem length_centers (l : List ℚ) : (centers l).length = l.length - 1 := by
  simp [centers]

theorem flatten_getD {α : Type} (d : α) (M : List (List α)) (C : ℕ)
    (hrow : ∀ row ∈ M, row.length = C) :
    ∀ i j, i < M.length → j < C → M.flatten.getD (i * C + j) d = (M.getD i []).getD j d := by
  induction M with
  | nil => intro i j hi hj; simp at hi
  | cons row rest ih =>
    intro i j hi hj
    have hrl : row.length = C := hrow row (List.mem_cons_self row rest)
    match i with
    | 0 =>
      simp only [List.flatten_cons, Nat.zero_mul, Nat.zero_add]
      rw [List.getD_eq_getElem?_getD, List.getElem?_append_left (by omega),
        ← List.getD_eq_getElem?_getD]
      rfl
    | i + 1 =>
      have harith : (i + 1) * C + j = row.length + (i * C + j) := by
        rw [hrl]; ring
      simp only [List.flatten_cons]
      rw [List.getD_eq_getElem?_getD, harith, List.getElem?_append_right (by omega)]
      have h2 : row.length + (i * C + j) - row.length = i * C + j := by omega
      rw [h2, ← List.getD_eq_getElem?_getD]
      exact ih (fun r hr => hrow r (List.mem_cons_of_mem row hr)) i j (by simpa using hi) hj

theorem histogram2d_ok_inv (pts : List Row) (R : ℕ) (o1 o2 o3 o4 : Option ℚ)
    (t : List (List ℕ) × List ℚ × List ℚ)
    (h : histogram2d pts R o1 o2 o3 o4 = Except.ok t) :
    R ≠ 0 ∧ ∃ x1 x2 y1 y2 : ℚ, x1 < x2 ∧ y1 < y2 ∧
      t = (mkGrid R R (fun i j => pts.countP (fun r =>
            decide (binIdx x1 x2 R r.x = some i) && decide (binIdx y1 y2 R r.y = some j))),
          edgesOf x1 x2 R, edgesOf y1 y2 R) := by
  cases o1 with
  | none => simp [histogram2d] at h
  | some x1 =>
  cases o2 with
  | none => simp [histogram2d] at h
  | some x2 =>
  cases o3 with
  | none => simp [histogram2d] at h
  | some y1 =>
  cases o4 with
  | none => simp [histogram2d] at h
  | some y2 =>
  rw [histogram2d] at h
  by_cases hR : R = 0
  · rw [if_pos hR] at h; cases h
  rw [if_neg hR] at h
  by_cases hx : x2 < x1
  · rw [if_pos hx] at h; cases h
  rw [if_neg hx] at h
  by_cases hy : y2 < y1
  · rw [if_pos hy] at h; cases h
  rw [if_neg hy] at h
  refine ⟨hR, ?_⟩
  by_cases hxe : x1 = x2 <;> by_cases hye : y1 = y2 <;>
    simp only [if_pos, if_neg, hxe, hye, if_true, if_false, ite_true, ite_false] at h
  · exact ⟨x2 - 1/2, x2 + 1/2, y2 - 1/2, y2 + 1/2,
      by linarith, by linarith, by injection h with h2; exact h2.symm⟩
  · exact ⟨x2 - 1/2, x2 + 1/2, y1, y2,
      by linarith, lt_of_le_of_ne (not_lt.mp hy) hye,
      by injection h with h2; exact h2.symm⟩
  · exact ⟨x1, x2, y2 - 1/2, y2 + 1/2,
      lt_of_le_of_ne (not_lt.mp hx) hxe, by linarith,
      by injection h with h2; exact h2.symm⟩
  · exact ⟨x1, x2, y1, y2,
      lt_of_le_of_ne (not_lt.mp hx) hxe, lt_of_le_of_ne (not_lt.mp hy) hye,
      by injection h with h2; exact h2.symm⟩

theorem model_success_inv (rng : ℕ) (df : List Row) (b : ℕ) (s : ℚ)
    (o1 o2 o3 o4 : Option ℚ)
    (h : succeeded (model rng df b s o1 o2 o3 o4) = true) :
    ¬ df.length < 10 ∧
    modelBody rng df b s o1 o2 o3 o4 =
      Except.ok (resultOf (model rng df b s o1 o2 o3 o4)) := by
  by_cases hlen : df.length < 10
  · simp [model, hlen, succeeded] at h
  · refine ⟨hlen, ?_⟩
    match hb : modelBody rng df b s o1 o2 o3 o4 with
    | Except.ok r => simp [model, hlen, hb, resultOf]
    | Except.error e => simp [model, hlen, hb, succeeded] at h

theorem modelBody_ok_inv (rng : ℕ) (df : List Row) (b : ℕ) (s : ℚ)
    (o1 o2 o3 o4 : Option ℚ) (res : DensityResult)
    (h : modelBody rng df b s o1 o2 o3 o4 = Except.ok res) :
    ∃ hist xe ye, modelHistogram rng df b o1 o2 o3 o4 = Except.ok (hist, xe, ye) ∧
      res = { x := (meshgrid (centers xe) (centers ye)).1,
              y := (meshgrid (centers xe) (centers ye)).2,
              density := (if samplingTier df.length < 1 then
                  gridMapQ (fun q => q / samplingTier df.length)
                    (gaussian_filter s (npTranspose (natGrid hist)))
                else gaussian_filter s (npTranspose (natGrid hist))),
              x_flat := (meshgrid (centers xe) (centers ye)).1.flatten,
              y_flat := (meshgrid (centers xe) (centers ye)).2.flatten,
              density_flat := (if samplingTier df.length < 1 then
                  gridMapQ (fun q => q / samplingTier df.length)
                    (gaussian_filter s (npTranspose (natGrid hist)))
                else gaussian_filter s (npTranspose (natGrid hist))).flatten } := by
  rw [modelBody] at h
  revert h
  match hh : modelHistogram rng df b o1 o2 o3 o4 with
  | Except.error e => intro h; cases h
  | Except.ok (hist, xe, ye) =>
    intro h
    injection h with h2
    exact ⟨hist, xe, ye, rfl, h2.symm⟩

theorem modelHistogram_eq (rng : ℕ) (df : List Row) (b : ℕ) (o1 o2 o3 o4 : Option ℚ) :
    modelHistogram rng df b o1 o2 o3 o4 =
      histogram2d (sampledSet rng df) (_calculate_dynamic_resolution df.length b)
        (computeBounds o1 o2 o3 o4 ((sampledSet rng df).map (fun r => r.x))
          ((sampledSet rng df).map (fun r => r.y))).1
        (computeBounds o1 o2 o3 o4 ((sampledSet rng df).map (fun r => r.x))
          ((sampledSet rng df).map (fun r => r.y))).2.1
        (computeBounds o1 o2 o3 o4 ((sampledSet rng df).map (fun r => r.x))
          ((sampledSet rng df).map (fun r => r.y))).2.2.1
        (computeBounds o1 o2 o3 o4 ((sampledSet rng df).map (fun r => r.x))
          ((sampledSet rng df).map (fun r => r.y))).2.2.2 := rfl

theorem smoothed_density_shape (s p : ℚ) (q : Prop) [Decidable q] (R : ℕ) (hf : ℕ → ℕ → ℕ)
    (hR : R ≠ 0) :
    ∃ g, (if q then gridMapQ (fun v => v / p)
            (gaussian_filter s (npTranspose (natGrid (mkGrid R R hf))))
          else gaussian_filter s (npTranspose (natGrid (mkGrid R R hf)))) = mkGrid R R g := by
  have base : ∃ g, gaussian_filter s (npTranspose (natGrid (mkGrid R R hf))) = mkGrid R R g := by
    rw [natGrid_mkGrid, npTranspose_mkGrid _ _ _ hR]
    exact gaussian_filter_shape s R R _ hR
  obtain ⟨g, hg⟩ := base
  by_cases hq : q
  · rw [if_pos hq, hg, gridMapQ_mkGrid]
    exact ⟨_, rfl⟩
  · rw [if_neg hq, hg]
    exact ⟨g, rfl⟩

theorem flat_align (M : List (List ℚ)) (C : ℕ) (hrow : ∀ row ∈ M, row.length = C)
    (i j : ℕ) (hi : i < M.length) (hj : j < C) :
    M.flatten.getD (i * C + j) 0 = entry M i j :=
  flatten_getD 0 M C hrow i j hi hj

/-- C1 (amended): for every successful call, the structured result contains
the 2-D density grid and the per-axis coordinate meshes in both 2-D and
flattened index-aligned forms: the density grid and both meshes are
`R x R` arrays for `R` the resolution actually used
(`_calculate_dynamic_resolution`), so the resolution is contained in the
result as the grid dimensions; the flattened fields are exactly the
row-major flattenings of the 2-D fields, and cell `i*R + j` of each
flattened field equals cell `(i, j)` of the corresponding 2-D field.  The
bounding box actually used is NOT part of the result (the claim as stated is
false: see the counterexample, where two calls with different caller boxes
return identical results). -/
theorem c1_result_contents (rng : ℕ) (df : List Row) (b : ℕ) (s : ℚ) (o1 o2 o3 o4 : Option ℚ)
    (h : succeeded (model rng df b s o1 o2 o3 o4) = true) :
    (resultOf (model rng df b s o1 o2 o3 o4)).density.length =
        _calculate_dynamic_resolution df.length b ∧
    (∀ row ∈ (resultOf (model rng df b s o1 o2 o3 o4)).density,
        row.length = _calculate_dynamic_resolution df.length b) ∧
    (resultOf (model rng df b s o1 o2 o3 o4)).x.length =
        _calculate_dynamic_resolution df.length b ∧
    (resultOf (model rng df b s o1 o2 o3 o4)).y.length =
        _calculate_dynamic_resolution df.length b ∧
    (∀ row ∈ (resultOf (model rng df b s o1 o2 o3 o4)).x,
        row.length = _calculate_dynamic_resolution df.length b) ∧
    (∀ row ∈ (resultOf (model rng df b s o1 o2 o3 o4)).y,
        row.length = _calculate_dynamic_resolution df.length b) ∧
    ((resultOf (model rng df b s o1 o2 o3 o4)).x_flat =
        (resultOf (model rng df b s o1 o2 o3 o4)).x.flatten ∧
     (resultOf (model rng df b s o1 o2 o3 o4)).y_flat =
        (resultOf (model rng df b s o1 o2 o3 o4)).y.flatten ∧
     (resultOf (model rng df b s o1 o2 o3 o4)).density_flat =
        (resultOf (model rng df b s o1 o2 o3 o4)).density.flatten) ∧
    (∀ i j, i < _calculate_dynamic_resolution df.length b →
        j < _calculate_dynamic_resolution df.length b →
      (resultOf (model rng df b s o1 o2 o3 o4)).x_flat.getD
          (i * _calculate_dynamic_resolution df.length b + j) 0 =
        entry (resultOf (model rng df b s o1 o2 o3 o4)).x i j ∧
      (resultOf (model rng df b s o1 o2 o3 o4)).y_flat.getD
          (i * _calculate_dynamic_resolution df.length b + j) 0 =
        entry (resultOf (model rng df b s o1 o2 o3 o4)).y i j ∧
      (resultOf (model rng df b s o1 o2 o3 o4)).density_flat.getD
          (i * _calculate_dynamic_resolution df.length b + j) 0 =
        entry (resultOf (model rng df b s o1 o2 o3 o4)).density i j) := by
  obtain ⟨hlen, hbody⟩ := model_success_inv rng df b s o1 o2 o3 o4 h
  obtain ⟨hist, xe, ye, hh, hres⟩ := modelBody_ok_inv rng df b s o1 o2 o3 o4 _ hbody
  rw [modelHistogram_eq] at hh
  obtain ⟨hR, x1, x2, y1, y2, hx12, hy12, ht⟩ := histogram2d_ok_inv _ _ _ _ _ _ _ hh
  obtain ⟨hhist, hxe, hye⟩ : hist = _ ∧ xe = _ ∧ ye = _ := by
    refine ⟨congrArg Prod.fst ht, ?_, ?_⟩
    · exact congrArg (fun z => z.2.1) ht
    · exact congrArg (fun z => z.2.2) ht
  subst hhist hxe hye
  set R := _calculate_dynamic_resolution df.length b with hRdef
  obtain ⟨g, hg⟩ := smoothed_density_shape s (samplingTier df.length)
    (samplingTier df.length < 1) R _ hR
  rw [hg] at hres
  have hcx : (centers (edgesOf x1 x2 R)).length = R := by
    rw [length_centers, length_edgesOf]
    omega
  have hcy : (centers (edgesOf y1 y2 R)).length = R := by
    rw [length_centers, length_edgesOf]
    omega
  simp only [meshgrid] at hres
  rw [hres]
  constructor
  · exact mkGrid_length R R g
  constructor
  · intro row hrow; exact mkGrid_row_length hrow
  constructor
  · simp [hcy]
  constructor
  · simp [hcy]
  constructor
  · intro row hrow
    simp only [List.mem_map] at hrow
    obtain ⟨v, _, rfl⟩ := hrow
    exact hcx
  constructor
  · intro row hrow
    simp only [List.mem_map] at hrow
    obtain ⟨v, _, rfl⟩ := hrow
    simp [hcx]
  constructor
  · exact ⟨rfl, rfl, rfl⟩
  · intro i j hi hj
    refine ⟨?_, ?_, ?_⟩
    · apply flat_align
      · intro row hrow
        simp only [List.mem_map] at hrow
        obtain ⟨v, _, rfl⟩ := hrow
        exact hcx
      · simp [hcy]
        omega
      · exact hj
    · apply flat_align
      · intro row hrow
        simp only [List.mem_map] at hrow
        obtain ⟨v, _, rfl⟩ := hrow
        simp [hcx]
      · simp [hcy]
        omega
      · exact hj
    · apply flat_align
      · intro row hrow; exact mkGrid_row_length hrow
      · rw [mkGrid_length]; exact hi
      · exact hj

/-! ### Claim C3: the raw histogram mass -/

theorem binIdx_eq_none_iff (a b : ℚ) (R : ℕ) (v : ℚ) :
    binIdx a b R v = none ↔ (v < a ∨ b < v) := by
  unfold binIdx
  split_ifs with h1 h2 <;> simp [h1]

theorem binIdx_some_imp_inbox (a b : ℚ) (R : ℕ) (v : ℚ) (i : ℕ)
    (h : binIdx a b R v = some i) : a ≤ v ∧ v ≤ b := by
  unfold binIdx at h
  split_ifs at h with h1 h2
  · exact ⟨not_or.mp h1 |>.1 |> not_lt.mp, not_or.mp h1 |>.2 |> not_lt.mp⟩
  · exact ⟨not_or.mp h1 |>.1 |> not_lt.mp, not_or.mp h1 |>.2 |> not_lt.mp⟩

theorem binIdx_inbox_some (a b : ℚ) (R : ℕ) (v : ℚ) (h1 : a ≤ v) (h2 : v ≤ b) :
    ∃ i, binIdx a b R v = some i := by
  unfold binIdx
  have : ¬ (v < a ∨ b < v) := by push_neg; exact ⟨h1, h2⟩
  rw [if_neg this]
  split_ifs <;> exact ⟨_, rfl⟩

theorem binIdx_lt (a b : ℚ) (R : ℕ) (v : ℚ) (i : ℕ) (hR : R ≠ 0)
    (h : binIdx a b R v = some i) : i < R := by
  unfold binIdx at h
  split_ifs at h with h1 h2
  · injection h with h3
    omega
  · injection h with h3
    have := min_le_left (R - 1) (Int.toNat ⌊(v - a) * (R : ℚ) / (b - a)⌋)
    omega

theorem sum_map_range (n : ℕ) (f : ℕ → ℕ) :
    ((List.range n).map f).sum = ∑ i in Finset.range n, f i := by
  induction n with
  | zero => simp
  | succ m ih => rw [List.range_succ, List.map_append, List.sum_append,
      Finset.sum_range_succ, ih]; simp

theorem gridSumN_mkGrid (R C : ℕ) (f : ℕ → ℕ → ℕ) :
    gridSumN (mkGrid R C f) = ∑ i in Finset.range R, ∑ j in Finset.range C, f i j := by
  simp only [gridSumN, mkGrid, List.map_map, Function.comp_def]
  rw [sum_map_range]
  apply Finset.sum_congr rfl
  intro i _
  rw [sum_map_range]

theorem hist_double_sum (pts : List Row) (a b c d : ℚ) (R : ℕ) (hR : R ≠ 0) :
    (∑ i in Finset.range R, ∑ j in Finset.range R,
      pts.countP (fun r => decide (binIdx a b R r.x = some i) &&
        decide (binIdx c d R r.y = some j))) =
    pts.countP (fun r => decide (a ≤ r.x ∧ r.x ≤ b ∧ c ≤ r.y ∧ r.y ≤ d)) := by
  induction pts with
  | nil => simp
  | cons r l ih =>
    simp only [List.countP_cons]
    rw [show (∑ i in Finset.range R, ∑ j in Finset.range R,
        (l.countP (fun r2 => decide (binIdx a b R r2.x = some i) &&
          decide (binIdx c d R r2.y = some j)) +
         if (decide (binIdx a b R r.x = some i) && decide (binIdx c d R r.y = some j)) = true
         then 1 else 0)) =
      (∑ i in Finset.range R, ∑ j in Finset.range R,
        l.countP (fun r2 => decide (binIdx a b R r2.x = some i) &&
          decide (binIdx c d R r2.y = some j))) +
      (∑ i in Finset.range R, ∑ j in Finset.range R,
        if (decide (binIdx a b R r.x = some i) && decide (binIdx c d R r.y = some j)) = true
        then 1 else 0) from by
        rw [← Finset.sum_add_distrib]
        apply Finset.sum_congr rfl
        intro i _
        rw [← Finset.sum_add_distrib]]
    rw [ih]
    congr 1
    rcases hbx : binIdx a b R r.x with _ | ix
    · have hout : ¬ (a ≤ r.x ∧ r.x ≤ b ∧ c ≤ r.y ∧ r.y ≤ d) := by
        rcases (binIdx_eq_none_iff a b R r.x).mp hbx with h1 | h1
        · intro hc; linarith [hc.1]
        · intro hc; linarith [hc.2.1]
      simp [hbx, hout]
    · rcases hby : binIdx c d R r.y with _ | iy
      · have hout : ¬ (a ≤ r.x ∧ r.x ≤ b ∧ c ≤ r.y ∧ r.y ≤ d) := by
          rcases (binIdx_eq_none_iff c d R r.y).mp hby with h1 | h1
          · intro hc; linarith [hc.2.2.1]
          · intro hc; linarith [hc.2.2.2]
        simp [hbx, hby, hout]
      · have hinx := binIdx_some_imp_inbox a b R r.x ix hbx
        have hiny := binIdx_some_imp_inbox c d R r.y iy hby
        have hin : (a ≤ r.x ∧ r.x ≤ b ∧ c ≤ r.y ∧ r.y ≤ d) :=
          ⟨hinx.1, hinx.2, hiny.1, hiny.2⟩
        simp only [hbx, hby, Option.some.injEq, Bool.and_eq_true, decide_eq_true_eq]
        have hstep : ∀ i ∈ Finset.range R,
            (∑ j in Finset.range R, if ix = i ∧ iy = j then 1 else 0) =
            if ix = i then 1 else 0 := by
          intro i _
          by_cases hi : ix = i
          · simp only [hi, true_and, if_true, ite_and]
            rw [Finset.sum_ite_eq]
            rw [if_pos (Finset.mem_range.mpr (binIdx_lt c d R r.y iy hR hby))]
          · simp [hi]
        rw [Finset.sum_congr rfl hstep, Finset.sum_ite_eq,
          if_pos (Finset.mem_range.mpr (binIdx_lt a b R r.x ix hR hbx))]
        simp [hin]

/-- C3 (amended): for every PointSet with at least 10 points and every valid
caller-supplied bounding box (all four bounds given, `x_min < x_max`,
`y_min < y_max`), the sum over all cells of the raw 2-D histogram built by
`model` equals the number of points of the histogrammed set — the sampled
set, which is the full input whenever no sampling applies (`n < 1000`) —
that lie within the CLOSED bounding box: both the minimum and the maximum
edge are inclusive, per numpy's binning.  Points outside the box are dropped,
not clipped.  (The claim as stated is false on two counts: a point exactly on
the maximum edge is counted although it is not strictly within the box — see
the counterexample — and for `n ≥ 1000` the histogram counts sampled points,
not input points.) -/
theorem c3_histogram_sum (rng : ℕ) (df : List Row) (b : ℕ) (x1 x2 y1 y2 : ℚ)
    (hist : List (List ℕ)) (xe ye : List ℚ)
    (hn : 10 ≤ df.length) (hx : x1 < x2) (hy : y1 < y2)
    (h : histogram2d (sampledSet rng df) (_calculate_dynamic_resolution df.length b)
          (some x1) (some x2) (some y1) (some y2) = Except.ok (hist, xe, ye)) :
    gridSumN hist = (sampledSet rng df).countP
      (fun r => decide (x1 ≤ r.x ∧ r.x ≤ x2 ∧ y1 ≤ r.y ∧ r.y ≤ y2)) := by
  rw [histogram2d] at h
  by_cases hR : _calculate_dynamic_resolution df.length b = 0
  · rw [if_pos hR] at h; cases h
  rw [if_neg hR, if_neg (not_lt.mpr (le_of_lt hx)), if_neg (not_lt.mpr (le_of_lt hy))] at h
  simp only [if_neg (ne_of_lt hx), if_neg (ne_of_lt hy)] at h
  injection h with h2
  rw [Prod.mk.injEq, Prod.mk.injEq] at h2
  obtain ⟨hA, hB, hC⟩ := h2
  rw [← hA, gridSumN_mkGrid]
  exact hist_double_sum (sampledSet rng df) x1 x2 y1 y2 _ hR

/-! ### Claim C9: sampling-bias correction -/

theorem map_map_getD (M : List (List ℚ)) (g : List ℚ → List ℚ) (hg : g [] = [])
    (i : ℕ) : (M.map g).getD i [] = g (M.getD i []) := by
  induction M generalizing i with
  | nil => exact hg.symm
  | cons r t ih =>
    cases i with
    | zero => rfl
    | succ m => exact ih m

theorem map_div_getD (row : List ℚ) (p : ℚ) (j : ℕ) :
    (row.map (fun q => q / p)).getD j 0 = row.getD j 0 / p := by
  induction row generalizing j with
  | nil => simp [zero_div]
  | cons a t ih =>
    cases j with
    | zero => rfl
    | succ m => exact ih m

theorem entry_gridMapQ_div (M : List (List ℚ)) (p : ℚ) (i j : ℕ) :
    entry (gridMapQ (fun q => q / p) M) i j = entry M i j / p := by
  unfold entry gridMapQ
  rw [map_map_getD M _ rfl i, map_div_getD]

/-- C9: whenever the sampling fraction `p = samplingTier n` is below 1 and
the call succeeds, every cell of the corrected density returned by `model`
equals the corresponding cell of the uncorrected smoothed density
(`uncorrectedSmoothed`, the same pipeline without the `density / sample_pct`
step) divided by `p`. -/
theorem c9_bias_correction (rng : ℕ) (df : List Row) (b : ℕ) (s : ℚ)
    (o1 o2 o3 o4 : Option ℚ)
    (hp : samplingTier df.length < 1)
    (h : succeeded (model rng df b s o1 o2 o3 o4) = true) :
    ∀ i j, entry (resultOf (model rng df b s o1 o2 o3 o4)).density i j =
      entry (uncorrectedSmoothed rng df b s o1 o2 o3 o4) i j / samplingTier df.length := by
  obtain ⟨hlen, hbody⟩ := model_success_inv rng df b s o1 o2 o3 o4 h
  obtain ⟨hist, xe, ye, hh, hres⟩ := modelBody_ok_inv rng df b s o1 o2 o3 o4 _ hbody
  intro i j
  have hu : uncorrectedSmoothed rng df b s o1 o2 o3 o4 =
      gaussian_filter s (npTranspose (natGrid hist)) := by
    rw [uncorrectedSmoothed, hh]
  rw [hres, hu]
  simp only [if_pos hp]
  exact entry_gridMapQ_div _ _ i j

/-- C9 witness: the theorem applied to a 1000-point input (the smallest size
with sampling fraction below 1) with `base_resolution = 1`, at cell (0, 0).
The success hypothesis is discharged by the auto-bounds success lemma. -/
theorem c9_bias_correction_witness :
    entry (resultOf (model 0 (List.replicate 1000 ⟨0,0⟩) 1 (3/2)
        none none none none)).density 0 0 =
      entry (uncorrectedSmoothed 0 (List.replicate 1000 ⟨0,0⟩) 1 (3/2)
        none none none none) 0 0 /
        samplingTier (List.replicate 1000 (⟨0,0⟩ : Row)).length :=
  c9_bias_correction 0 (List.replicate 1000 ⟨0,0⟩) 1 (3/2) none none none none
    (by norm_num [samplingTier, List.length_replicate])
    (model_auto_succeeds 0 (List.replicate 1000 ⟨0,0⟩) 1 (3/2)
      (by rw [List.length_replicate]; omega)
      (by rw [List.length_replicate]; decide)) 0 0

/-! ### Claim C4: the derived bounding box -/

/-- C4 (amended): when the caller does not supply `x_min`, the bounding box
used by `model` is derived from the coordinate range of the data passed to
the histogram (the sampled set) expanded by a 10% padding margin on each
axis; after padding it satisfies `x_min ≤ x_max` and `y_min ≤ y_max`, with
strict inequality whenever the data has nonzero range on the axis.  (The
claimed strict invariant `x_min < x_max ∧ y_min < y_max` is false when all
points share a coordinate — see the counterexample; the histogram stage then
widens the degenerate axis by 0.5 on each side.) -/
theorem c4_derived_box (o2 o3 o4 : Option ℚ) (xs ys : List ℚ) :
    computeBounds none o2 o3 o4 xs ys =
      (some (npMin xs - (npMax xs - npMin xs) * (1/10)),
       some (npMax xs + (npMax xs - npMin xs) * (1/10)),
       some (npMin ys - (npMax ys - npMin ys) * (1/10)),
       some (npMax ys + (npMax ys - npMin ys) * (1/10))) ∧
    npMin xs - (npMax xs - npMin xs) * (1/10) ≤
      npMax xs + (npMax xs - npMin xs) * (1/10) ∧
    npMin ys - (npMax ys - npMin ys) * (1/10) ≤
      npMax ys + (npMax ys - npMin ys) * (1/10) ∧
    (npMin xs < npMax xs →
      npMin xs - (npMax xs - npMin xs) * (1/10) <
        npMax xs + (npMax xs - npMin xs) * (1/10)) ∧
    (npMin ys < npMax ys →
      npMin ys - (npMax ys - npMin ys) * (1/10) <
        npMax ys + (npMax ys - npMin ys) * (1/10)) := by
  refine ⟨rfl, ?_, ?_, fun h => by nlinarith, fun h => by nlinarith⟩
  · nlinarith [npMin_le_npMax xs]
  · nlinarith [npMin_le_npMax ys]

/-! ### Claim C8: determinism of sampling and of the full pipeline -/

/-- C8: two invocations with identical inputs produce bit-identical sampling
selections and identical results, whatever the ambient global random state
`rng` is on either invocation: because every `.sample` call passes the fixed
seed `random_state=42` (`drawSeeded 42`), the ambient state is never
consumed, so the sampler and `model` do not depend on it.  Had the source
sampled without a seed (`pandasSampleAmbient`), the two sides would differ. -/
theorem c8_fixed_seed_determinism (rng₁ rng₂ : ℕ) (df : List Row) (m b : ℕ)
    (s : ℚ) (o1 o2 o3 o4 : Option ℚ) :
    _stratified_spatial_sample rng₁ df m = _stratified_spatial_sample rng₂ df m ∧
    model rng₁ df b s o1 o2 o3 o4 = model rng₂ df b s o1 o2 o3 o4 :=
  ⟨rfl, rfl⟩

/-! ### Claim C5: size and content of the stratified sample -/

theorem pd_cut_length (xs : List ℚ) (k : ℕ) : (pd_cut xs k).length = xs.length := by
  match xs with
  | [] => rfl
  | a :: t => simp [pd_cut]

theorem strat_sample_size (rng : ℕ) (df : List Row) (m : ℕ) :
    (_stratified_spatial_sample rng df m).length ≤ m := by
  simp only [_stratified_spatial_sample]
  split_ifs with h
  · simp only [drawSeeded, List.length_take]
    omega
  · omega

theorem insertByCount_perm (cnt : ℕ → ℕ) (b : ℕ) (l : List ℕ) :
    (insertByCount cnt b l).Perm (b :: l) := by
  induction l with
  | nil => exact List.Perm.refl _
  | cons c t ih =>
    unfold insertByCount
    split_ifs with h
    · exact List.Perm.refl _
    · exact (List.Perm.cons c ih).trans (List.Perm.swap b c t)

theorem sortByCountDesc_perm (cnt : ℕ → ℕ) (l : List ℕ) :
    (sortByCountDesc cnt l).Perm l := by
  induction l with
  | nil => exact List.Perm.refl _
  | cons b t ih =>
    exact (insertByCount_perm cnt b (sortByCountDesc cnt t)).trans (List.Perm.cons b ih)

theorem firstSeen_mem (l : List ℕ) (v : ℕ) : v ∈ firstSeen l ↔ v ∈ l := by
  induction l with
  | nil => simp [firstSeen]
  | cons b t ih =>
    simp only [firstSeen, List.mem_cons, List.mem_filter]
    by_cases hv : v = b
    · simp [hv]
    · simp [hv, ih]

theorem firstSeen_nodup (l : List ℕ) : (firstSeen l).Nodup := by
  induction l with
  | nil => exact List.nodup_nil
  | cons b t ih =>
    refine List.Nodup.cons ?_ (List.Nodup.filter _ ih)
    intro hmem
    have := (List.mem_filter.mp hmem).2
    simp at this

theorem value_counts_keys_nodup (bs : List ℕ) : (value_counts_keys bs).Nodup :=
  ((sortByCountDesc_perm (countOf bs) (firstSeen bs)).nodup_iff).mpr (firstSeen_nodup bs)

theorem mem_value_counts_keys (bs : List ℕ) (v : ℕ) (h : v ∈ bs) :
    v ∈ value_counts_keys bs :=
  ((sortByCountDesc_perm (countOf bs) (firstSeen bs)).mem_iff).mpr
    ((firstSeen_mem bs v).mpr h)

theorem partition_perm (keys : List ℕ) : ∀ (l : List (Row × ℕ)), keys.Nodup →
    (∀ p ∈ l, p.2 ∈ keys) →
    ((keys.map (fun b => l.filter (fun p => p.2 = b))).flatten).Perm l := by
  induction keys with
  | nil =>
    intro l _ hmem
    have : l = [] := by
      cases l with
      | nil => rfl
      | cons p t => exact absurd (hmem p (List.mem_cons_self p t)) (List.not_mem_nil p.2)
    rw [this]
    exact List.Perm.refl _
  | cons k ks ih =>
    intro l hnodup hmem
    simp only [List.map_cons, List.flatten_cons]
    have hknot : k ∉ ks := (List.nodup_cons.mp hnodup).1
    have hrw : ks.map (fun b => l.filter (fun p => p.2 = b)) =
        ks.map (fun b => (l.filter (fun p => ¬ p.2 = k)).filter (fun p => p.2 = b)) := by
      apply List.map_congr_left
      intro b hb
      rw [List.filter_filter]
      apply List.filter_congr
      intro p _
      by_cases hpb : p.2 = b
      · have hbk : ¬ b = k := fun hbk => hknot (hbk ▸ hb)
        have hpk : ¬ p.2 = k := by rw [hpb]; exact hbk
        simp [hpb, hpk, hbk]
      · simp [hpb]
    rw [hrw]
    have ihh := ih (l.filter (fun p => ¬ p.2 = k)) (List.nodup_cons.mp hnodup).2
      (fun p hp => by
        have hpl := List.mem_filter.mp hp
        have := hmem p hpl.1
        rcases List.mem_cons.mp this with h1 | h1
        · exact absurd h1 (by simpa using hpl.2)
        · exact h1)
    refine (List.Perm.append_left _ ihh).trans ?_
    have hfap := List.filter_append_perm (fun p : Row × ℕ => decide (p.2 = k)) l
    simp only [decide_not]
    exact hfap

theorem bins_length (df : List Row) (k : ℕ) :
    (List.zipWith (fun a b => a * k + b) (pd_cut (df.map (fun r => r.x)) k)
      (pd_cut (df.map (fun r => r.y)) k)).length = df.length := by
  rw [List.length_zipWith, pd_cut_length, pd_cut_length, List.length_map, List.length_map]
  omega

theorem strat_sample_full (rng : ℕ) (df : List Row) (m : ℕ) (h : df.length ≤ m) :
    (_stratified_spatial_sample rng df m).Perm df := by
  by_cases hdf : df.length = 0
  · rw [List.length_eq_zero] at hdf
    subst hdf
    simp [_stratified_spatial_sample, pd_cut, value_counts_keys, firstSeen, sortByCountDesc]
  · have hpos : 0 < df.length := Nat.pos_of_ne_zero hdf
    simp only [_stratified_spatial_sample]
    set k := max 10 (min 50 (Nat.sqrt (m / 10))) with hk
    set bins := List.zipWith (fun a b => a * k + b) (pd_cut (df.map (fun r => r.x)) k)
      (pd_cut (df.map (fun r => r.y)) k) with hbins
    set rows := df.zip bins with hrows
    have hbranch : ∀ b : ℕ,
        ((rows.filter (fun rb => rb.2 = b)).map (fun rb => rb.1)).length ≤
        max 1 (((rows.filter (fun rb => rb.2 = b)).map (fun rb => rb.1)).length * m /
          df.length) := by
      intro b
      set c := ((rows.filter (fun rb => rb.2 = b)).map (fun rb => rb.1)).length with hc
      rcases Nat.eq_zero_or_pos c with hc0 | hc0
      · omega
      · have h1 : c * df.length ≤ c * m := Nat.mul_le_mul_left c h
        have h2 : c ≤ c * m / df.length := (Nat.le_div_iff_mul_le hpos).mpr h1
        omega
    have hmapif : (value_counts_keys bins).map (fun b =>
          if ((rows.filter (fun rb => rb.2 = b)).map (fun rb => rb.1)).length ≤
              max 1 (((rows.filter (fun rb => rb.2 = b)).map (fun rb => rb.1)).length * m /
                df.length)
          then (rows.filter (fun rb => rb.2 = b)).map (fun rb => rb.1)
          else drawSeeded 42 ((rows.filter (fun rb => rb.2 = b)).map (fun rb => rb.1))
            (max 1 (((rows.filter (fun rb => rb.2 = b)).map (fun rb => rb.1)).length * m /
              df.length))) =
        (value_counts_keys bins).map (fun b =>
          (rows.filter (fun rb => rb.2 = b)).map (fun rb => rb.1)) := by
      apply List.map_congr_left
      intro b _
      exact if_pos (hbranch b)
    rw [hmapif]
    have hflat : ((value_counts_keys bins).map (fun b =>
          (rows.filter (fun rb => rb.2 = b)).map (fun rb => rb.1))).flatten =
        (((value_counts_keys bins).map (fun b =>
          rows.filter (fun rb => rb.2 = b))).flatten).map (fun rb => rb.1) := by
      rw [List.map_flatten, List.map_map]
      rfl
    rw [hflat]
    have hperm : ((((value_counts_keys bins).map (fun b =>
          rows.filter (fun rb => rb.2 = b))).flatten).map (fun rb => rb.1)).Perm
        (rows.map (fun rb => rb.1)) :=
      List.Perm.map _ (partition_perm (value_counts_keys bins) rows
        (value_counts_keys_nodup bins)
        (fun p hp => mem_value_counts_keys bins p.2 ((List.of_mem_zip hp).2)))
    have hfst : rows.map (fun rb => rb.1) = df := by
      rw [hrows]
      exact List.map_fst_zip df bins (by rw [hbins, bins_length])
    rw [hfst] at hperm
    have hlen2 : ¬ (m < ((((value_counts_keys bins).map (fun b =>
        rows.filter (fun rb => rb.2 = b))).flatten).map (fun rb => rb.1)).length) := by
      rw [hperm.length_eq]
      omega
    rw [if_neg hlen2]
    exact hperm

/-- C5 (amended): for every input and target size `m`, the stratified sampler
returns at most `m` rows whenever `m` is below the input size; when `m` is at
least the input size it returns every input row exactly once (the same
multiset), but possibly in a different order — the rows are regrouped by
spatial bin, most populous bin first, so the result is a permutation of the
input rather than the input unchanged (see the counterexample). -/
theorem c5_sampler_contract (rng : ℕ) (df : List Row) (m : ℕ) :
    (m < df.length → (_stratified_spatial_sample rng df m).length ≤ m) ∧
    (df.length ≤ m → (_stratified_spatial_sample rng df m).Perm df) :=
  ⟨fun _ => strat_sample_size rng df m, fun h => strat_sample_full rng df m h⟩

/-- C5 witness: the theorem applied to a 3-point input with `m = 2`
(subsampling) and with `m = 5` (full retention as a permutation). -/
theorem c5_sampler_contract_witness :
    (_stratified_spatial_sample 0 [⟨0,0⟩, ⟨10,0⟩, ⟨10,0⟩] 2).length ≤ 2 ∧
    (_stratified_spatial_sample 0 [⟨0,0⟩, ⟨10,0⟩, ⟨10,0⟩] 5).Perm
      [⟨0,0⟩, ⟨10,0⟩, ⟨10,0⟩] :=
  ⟨(c5_sampler_contract 0 [⟨0,0⟩, ⟨10,0⟩, ⟨10,0⟩] 2).1 (by decide),
   (c5_sampler_contract 0 [⟨0,0⟩, ⟨10,0⟩, ⟨10,0⟩] 5).2 (by decide)⟩

/-! ### Concrete counterexamples and witnesses

The section makes the four irreducible `Rat` field operations semireducible
so that concrete rational computations can be decided by the kernel. -/

section ConcreteRuns

attribute [local semireducible] Rat.add Rat.mul Rat.inv Rat.sub

set_option maxRecDepth 100000
set_option maxHeartbeats 1000000

/-- C1 counterexample: two successful calls on the same 100 identical points
with `base_resolution = 1` (so the selected resolution is 1) but different
caller-supplied bounding boxes, `[-1,1]²` and `[-2,2]²`, return identical
results field by field — so the structured result does not contain the
bounding box actually used. -/
theorem c1_result_contents_counterexample :
    ((resultOf (model 0 (List.replicate 100 ⟨0,0⟩) 1 (3/2) (some (-1)) (some 1)
        (some (-1)) (some 1))).x =
      (resultOf (model 0 (List.replicate 100 ⟨0,0⟩) 1 (3/2) (some (-2)) (some 2)
        (some (-2)) (some 2))).x ∧
     (resultOf (model 0 (List.replicate 100 ⟨0,0⟩) 1 (3/2) (some (-1)) (some 1)
        (some (-1)) (some 1))).y =
      (resultOf (model 0 (List.replicate 100 ⟨0,0⟩) 1 (3/2) (some (-2)) (some 2)
        (some (-2)) (some 2))).y ∧
     (resultOf (model 0 (List.replicate 100 ⟨0,0⟩) 1 (3/2) (some (-1)) (some 1)
        (some (-1)) (some 1))).density =
      (resultOf (model 0 (List.replicate 100 ⟨0,0⟩) 1 (3/2) (some (-2)) (some 2)
        (some (-2)) (some 2))).density ∧
     (resultOf (model 0 (List.replicate 100 ⟨0,0⟩) 1 (3/2) (some (-1)) (some 1)
        (some (-1)) (some 1))).x_flat =
      (resultOf (model 0 (List.replicate 100 ⟨0,0⟩) 1 (3/2) (some (-2)) (some 2)
        (some (-2)) (some 2))).x_flat ∧
     (resultOf (model 0 (List.replicate 100 ⟨0,0⟩) 1 (3/2) (some (-1)) (some 1)
        (some (-1)) (some 1))).y_flat =
      (resultOf (model 0 (List.replicate 100 ⟨0,0⟩) 1 (3/2) (some (-2)) (some 2)
        (some (-2)) (some 2))).y_flat ∧
     (resultOf (model 0 (List.replicate 100 ⟨0,0⟩) 1 (3/2) (some (-1)) (some 1)
        (some (-1)) (some 1))).density_flat =
      (resultOf (model 0 (List.replicate 100 ⟨0,0⟩) 1 (3/2) (some (-2)) (some 2)
        (some (-2)) (some 2))).density_flat) ∧
    succeeded (model 0 (List.replicate 100 ⟨0,0⟩) 1 (3/2) (some (-1)) (some 1)
      (some (-1)) (some 1)) = true ∧
    succeeded (model 0 (List.replicate 100 ⟨0,0⟩) 1 (3/2) (some (-2)) (some 2)
      (some (-2)) (some 2)) = true := by
  refine ⟨⟨?_, ?_, ?_, ?_, ?_, ?_⟩, ?_, ?_⟩ <;> decide

/-- C1 witness: the amended theorem applied to a successful 10-point call
with `base_resolution = 2` (resolution 4), projecting the grid dimension,
one flattening identity, and the index alignment of the density at cell
(1, 2). -/
theorem c1_result_contents_witness :
    (resultOf (model 0 [⟨0,0⟩,⟨1,0⟩,⟨0,1⟩,⟨1,1⟩,⟨2,1⟩,⟨0,2⟩,⟨1,2⟩,⟨2,2⟩,⟨3,1⟩,⟨3,3⟩]
        2 (3/2) none none none none)).density.length =
      _calculate_dynamic_resolution
        ([⟨0,0⟩,⟨1,0⟩,⟨0,1⟩,⟨1,1⟩,⟨2,1⟩,⟨0,2⟩,⟨1,2⟩,⟨2,2⟩,⟨3,1⟩,⟨3,3⟩] : List Row).length 2 ∧
    (resultOf (model 0 [⟨0,0⟩,⟨1,0⟩,⟨0,1⟩,⟨1,1⟩,⟨2,1⟩,⟨0,2⟩,⟨1,2⟩,⟨2,2⟩,⟨3,1⟩,⟨3,3⟩]
        2 (3/2) none none none none)).x_flat =
      (resultOf (model 0 [⟨0,0⟩,⟨1,0⟩,⟨0,1⟩,⟨1,1⟩,⟨2,1⟩,⟨0,2⟩,⟨1,2⟩,⟨2,2⟩,⟨3,1⟩,⟨3,3⟩]
        2 (3/2) none none none none)).x.flatten ∧
    (resultOf (model 0 [⟨0,0⟩,⟨1,0⟩,⟨0,1⟩,⟨1,1⟩,⟨2,1⟩,⟨0,2⟩,⟨1,2⟩,⟨2,2⟩,⟨3,1⟩,⟨3,3⟩]
        2 (3/2) none none none none)).density_flat.getD
      (1 * _calculate_dynamic_resolution
        ([⟨0,0⟩,⟨1,0⟩,⟨0,1⟩,⟨1,1⟩,⟨2,1⟩,⟨0,2⟩,⟨1,2⟩,⟨2,2⟩,⟨3,1⟩,⟨3,3⟩] : List Row).length 2 + 2) 0 =
      entry (resultOf (model 0 [⟨0,0⟩,⟨1,0⟩,⟨0,1⟩,⟨1,1⟩,⟨2,1⟩,⟨0,2⟩,⟨1,2⟩,⟨2,2⟩,⟨3,1⟩,⟨3,3⟩]
        2 (3/2) none none none none)).density 1 2 := by
  have h := c1_result_contents 0
    [⟨0,0⟩,⟨1,0⟩,⟨0,1⟩,⟨1,1⟩,⟨2,1⟩,⟨0,2⟩,⟨1,2⟩,⟨2,2⟩,⟨3,1⟩,⟨3,3⟩] 2 (3/2)
    none none none none
    (model_auto_succeeds 0 _ 2 (3/2) (by decide) (by decide))
  exact ⟨h.1, h.2.2.2.2.2.2.1.1, (h.2.2.2.2.2.2.2 1 2 (by decide) (by decide)).2.2⟩

/-- C3 counterexample: on `dfCorner` with caller box `[0,1]²`, the raw
histogram built by `model` sums to 10, while only 9 points are strictly
within the box: the point on the maximum edge is counted, so the claimed sum
over strictly-interior input points fails. -/
theorem c3_histogram_sum_counterexample :
    gridSumN (histOf (histogram2d (sampledSet 0 dfCorner)
      (_calculate_dynamic_resolution dfCorner.length 2)
      (some 0) (some 1) (some 0) (some 1))).1 = 10 ∧
    dfCorner.countP (fun r => decide (0 < r.x ∧ r.x < 1 ∧ 0 < r.y ∧ r.y < 1)) = 9 := by
  constructor
  · decide
  · decide

/-- C3 witness: the amended theorem applied to `dfCorner` and the box
`[0,1]²`, with the histogram triple produced by the actual call. -/
theorem c3_histogram_sum_witness :
    gridSumN (histOf (histogram2d (sampledSet 0 dfCorner)
      (_calculate_dynamic_resolution dfCorner.length 2)
      (some 0) (some 1) (some 0) (some 1))).1 =
    (sampledSet 0 dfCorner).countP
      (fun r => decide (0 ≤ r.x ∧ r.x ≤ 1 ∧ 0 ≤ r.y ∧ r.y ≤ 1)) :=
  c3_histogram_sum 0 dfCorner 2 0 1 0 1
    (histOf (histogram2d (sampledSet 0 dfCorner)
      (_calculate_dynamic_resolution dfCorner.length 2)
      (some 0) (some 1) (some 0) (some 1))).1
    (histOf (histogram2d (sampledSet 0 dfCorner)
      (_calculate_dynamic_resolution dfCorner.length 2)
      (some 0) (some 1) (some 0) (some 1))).2.1
    (histOf (histogram2d (sampledSet 0 dfCorner)
      (_calculate_dynamic_resolution dfCorner.length 2)
      (some 0) (some 1) (some 0) (some 1))).2.2
    (by decide) (by decide) (by decide) (by decide)

/-- C4 counterexample: for 10 identical points at (3, 4) with no caller
bounds, the box derived by `model` is `(3, 3, 4, 4)` — zero padding on both
axes — violating the claimed strict invariant `x_min < x_max`. -/
theorem c4_derived_box_counterexample :
    computeBounds none none none none
      ((sampledSet 0 (List.replicate 10 ⟨3,4⟩)).map (fun r => r.x))
      ((sampledSet 0 (List.replicate 10 ⟨3,4⟩)).map (fun r => r.y)) =
      (some 3, some 3, some 4, some 4) ∧ ¬ ((3 : ℚ) < 3) := by
  constructor
  · decide
  · decide

/-- C4 witness: the amended theorem applied to the series `[0, 1]` and
`[2, 5]`, whose ranges are nonzero, giving the padded box and its strict
ordering. -/
theorem c4_derived_box_witness :
    computeBounds none none none none [0, 1] [2, 5] =
      (some (npMin [0, 1] - (npMax [0, 1] - npMin [0, 1]) * (1/10)),
       some (npMax [0, 1] + (npMax [0, 1] - npMin [0, 1]) * (1/10)),
       some (npMin [2, 5] - (npMax [2, 5] - npMin [2, 5]) * (1/10)),
       some (npMax [2, 5] + (npMax [2, 5] - npMin [2, 5]) * (1/10))) ∧
    npMin [0, 1] - (npMax [0, 1] - npMin [0, 1]) * (1/10) <
      npMax [0, 1] + (npMax [0, 1] - npMin [0, 1]) * (1/10) ∧
    npMin [2, 5] - (npMax [2, 5] - npMin [2, 5]) * (1/10) <
      npMax [2, 5] + (npMax [2, 5] - npMin [2, 5]) * (1/10) := by
  have h := c4_derived_box none none none [0, 1] [2, 5]
  exact ⟨h.1, h.2.2.2.1 (by decide), h.2.2.2.2 (by decide)⟩

/-- C5 counterexample: a 3-point input with target size 3 (`m ≥ n`) is
returned with all three rows but in a different order — the two-point bin
comes first — so the sampler does not return the full set unchanged. -/
theorem c5_sampler_contract_counterexample :
    _stratified_spatial_sample 0 [⟨0,0⟩, ⟨10,0⟩, ⟨10,0⟩] 3 =
      [⟨10,0⟩, ⟨10,0⟩, ⟨0,0⟩] ∧
    ([⟨10,0⟩, ⟨10,0⟩, ⟨0,0⟩] : List Row) ≠ [⟨0,0⟩, ⟨10,0⟩, ⟨10,0⟩] := by
  constructor
  · decide
  · decide

end ConcreteRuns
